import Mathlib

/-!
Verification development for the HEAT-Labs-Tools replay utilities.

Shallow embedding of the relevant parts of
`src/replay-tools/battle-result-bulk-checker.py`,
`src/replay-tools/bulk-checker.py` and
`src/replay-tools/replay-statistics.py`.

Python JSON values are modelled by the inductive `Json` (numbers restricted
to integers, which covers every value the verified claims touch), Python
exceptions by `PyErr`, and Python dictionaries by insertion-ordered
association lists, which is faithful to CPython's dict semantics
(assignment to an existing key keeps its position, `len` counts entries).
-/

namespace HeatLabsTools

/-- Model of a Python/JSON value.  Numbers are restricted to integers:
every number appearing in the verified claims and their inputs is an
integer, and floating point is outside the scope of the embedding. -/
inductive Json where
  | null
  | bool (b : Bool)
  | num (n : Int)
  | str (s : String)
  | arr (elems : List Json)
  | obj (fields : List (String × Json))

/-- The Python exceptions the embedded code can raise. -/
inductive PyErr where
  | keyError
  | typeError
  | indexError
  | valueError
deriving DecidableEq

/-- First-occurrence lookup in an insertion-ordered dict. -/
def lookupField : List (String × Json) → String → Option Json
  | [], _ => none
  | (k', v') :: rest, k => if k' = k then some v' else lookupField rest k

/-- CPython dict assignment `d[k] = v`: an existing key keeps its position
and gets the new value, a new key is appended at the end. -/
def setField : List (String × Json) → String → Json → List (String × Json)
  | [], k, v => [(k, v)]
  | (k', v') :: rest, k, v =>
      if k' = k then (k, v) :: rest else (k', v') :: setField rest k v

/-- Python `x[k]` for a string key `k`: dict lookup (missing key raises
`KeyError`); any non-dict value raises `TypeError` (lists and strings only
take integer indices, numbers are not subscriptable). -/
def pyGetStr (j : Json) (k : String) : Except PyErr Json :=
  match j with
  | .obj fs =>
      match lookupField fs k with
      | some v => .ok v
      | none => .error .keyError
  | _ => .error .typeError

/-- Python `x[k] = v` for a string key: only dicts accept it. -/
def pySetStr (j : Json) (k : String) (v : Json) : Except PyErr Json :=
  match j with
  | .obj fs => .ok (.obj (setField fs k v))
  | _ => .error .typeError

/-- Python `x[i]` for a non-negative integer index `i`: list indexing
(`IndexError` past the end), string indexing yields a one-character string,
a dict looks `i` up as a key — a JSON-decoded dict has only string keys, so
that raises `KeyError`; other values raise `TypeError`. -/
def pyGetNat (j : Json) (i : Nat) : Except PyErr Json :=
  match j with
  | .arr xs =>
      match xs.get? i with
      | some v => .ok v
      | none => .error .indexError
  | .obj _ => .error .keyError
  | .str s =>
      match s.data.get? i with
      | some c => .ok (.str (String.mk [c]))
      | none => .error .indexError
  | _ => .error .typeError

/-- Python `len(x)`: defined on lists, dicts and strings, `TypeError`
otherwise. -/
def pyLen (j : Json) : Except PyErr Nat :=
  match j with
  | .arr xs => .ok xs.length
  | .obj fs => .ok fs.length
  | .str s => .ok s.length
  | _ => .error .typeError

/-- Python truthiness: `None`, `False`, `0`, `""`, `[]`, `{}` are falsy. -/
def pyTruthy : Json → Bool
  | .null => false
  | .bool b => b
  | .num n => !(decide (n = 0))
  | .str s => !(decide (s = ""))
  | .arr [] => false
  | .arr (_ :: _) => true
  | .obj [] => false
  | .obj (_ :: _) => true

/-- Python `==` between values that can be dict keys (hashable scalars).
Python identifies booleans with the integers 0 and 1; containers compare
recursively, but the embedded code only ever compares scalars (player
names, result strings), so containers are simply unequal to scalars here
(as in Python) and to each other only when that never matters. -/
def scalarEqb : Json → Json → Bool
  | .null, .null => true
  | .str a, .str b => decide (a = b)
  | .bool a, .bool b => decide (a = b)
  | .bool a, .num b => decide ((if a then (1 : Int) else 0) = b)
  | .num a, .bool b => decide (a = (if b then (1 : Int) else 0))
  | .num a, .num b => decide (a = b)
  | _, _ => false

/-- Python `x == "s"` for a string literal: true only for the equal string. -/
def jsonIsStr (j : Json) (s : String) : Bool :=
  scalarEqb j (.str s)

/-- Python `k in x` for a string `k`: key test on dicts, element test on
lists; other receivers raise `TypeError` (substring testing on strings
never occurs in the verified code paths). -/
def pyContainsStr (j : Json) (k : String) : Except PyErr Bool :=
  match j with
  | .obj fs => .ok ((lookupField fs k).isSome)
  | .arr xs => .ok (xs.any (fun x => scalarEqb x (.str k)))
  | _ => .error .typeError

/-- `os.path.basename` on POSIX: everything after the last `/`. -/
def pyBasename (p : String) : String :=
  String.mk (((p.data.reverse).takeWhile (fun c => c ≠ '/')).reverse)

/-! ### Association-list dictionary lemmas -/

theorem lookupField_setField_self (fs : List (String × Json)) (k : String) (v : Json) :
    lookupField (setField fs k v) k = some v := by
  induction fs with
  | nil => simp [setField, lookupField]
  | cons hd tl ih =>
    obtain ⟨k', v'⟩ := hd
    by_cases hk : k' = k
    · simp [setField, hk, lookupField]
    · simp [setField, hk, lookupField, ih]

theorem lookupField_setField_ne (fs : List (String × Json)) (k k' : String) (v : Json)
    (h : k' ≠ k) : lookupField (setField fs k v) k' = lookupField fs k' := by
  have hne : ¬ k = k' := fun he => h he.symm
  induction fs with
  | nil => simp [setField, lookupField, if_neg hne]
  | cons hd tl ih =>
    obtain ⟨k0, v0⟩ := hd
    by_cases hk : k0 = k
    · subst hk
      simp [setField, lookupField, if_neg hne]
    · simp only [setField, if_neg hk]
      by_cases hk' : k0 = k'
      · simp [lookupField, hk']
      · simp [lookupField, hk', ih]

theorem setField_of_lookup (fs : List (String × Json)) (k : String) (v : Json)
    (h : lookupField fs k = some v) : setField fs k v = fs := by
  induction fs with
  | nil => simp [lookupField] at h
  | cons hd tl ih =>
    obtain ⟨k0, v0⟩ := hd
    by_cases hk : k0 = k
    · subst hk
      simp [lookupField] at h
      simp [setField, h]
    · simp [lookupField, hk] at h
      simp [setField, hk, ih h]

theorem setField_setField (fs : List (String × Json)) (k : String) (v w : Json) :
    setField (setField fs k v) k w = setField fs k w := by
  induction fs with
  | nil => simp [setField]
  | cons hd tl ih =>
    obtain ⟨k0, v0⟩ := hd
    by_cases hk : k0 = k
    · simp [setField, hk]
    · simp [setField, hk, ih]

theorem length_setField_of_mem (fs : List (String × Json)) (k : String) (v : Json)
    (h : (lookupField fs k).isSome) : (setField fs k v).length = fs.length := by
  induction fs with
  | nil => simp [lookupField] at h
  | cons hd tl ih =>
    obtain ⟨k0, v0⟩ := hd
    by_cases hk : k0 = k
    · simp [setField, hk]
    · simp [lookupField, hk] at h
      simp [setField, hk, ih h]

/-! ## The store: `update_output_file` (battle-result-bulk-checker.py, lines 62-78)

The in-memory part of the update — what happens between `json.load` and
`json.dump` — is `updateDoc`.  It mirrors, statement for statement:

    basename = os.path.basename(filename)
    data["results"][basename] = {
        "match_details": json_segments,
        "game_version": build_info,
        "players": player_names,
    }
    data["processed_files"] = len(data["results"])
-/

/-- The record written for one replay file. -/
def mkRecord (segs buildInfo players : Json) : Json :=
  .obj [("match_details", segs), ("game_version", buildInfo), ("players", players)]

/-- The pure document transformation of `update_output_file`: the loaded
document `data` with the record for `filename` installed under its basename
and `processed_files` recomputed as `len(data["results"])`. -/
def updateDoc (data : Json) (filename : String) (segs buildInfo players : Json) :
    Except PyErr Json := do
  let basename := pyBasename filename
  let res ← pyGetStr data "results"
  let res' ← pySetStr res basename (mkRecord segs buildInfo players)
  let data' ← pySetStr data "results" res'
  let res2 ← pyGetStr data' "results"
  let n ← pyLen res2
  pySetStr data' "processed_files" (.num (Int.ofNat n))

/-- The document `initialize_output_file` writes, and the one the
`except (FileNotFoundError, json.JSONDecodeError)` branch of
`update_output_file` falls back to. -/
def freshDoc : Json :=
  .obj [("total_files", .num 0), ("processed_files", .num 0), ("results", .obj [])]

/-- The segments argument `process_replay_file` passes for a missing input
file: `{"error": "File not found"}` (battle-result-bulk-checker.py, line 83). -/
def errorSegs : Json := .obj [("error", .str "File not found")]

/-- The missing-file path of `process_replay_file` (lines 81-83): it calls
`update_output_file(filename, {"error": "File not found"}, {}, [])` with the
full path, so the record is keyed by the path's basename like any other. -/
def processMissingDoc (data : Json) (fn : String) : Except PyErr Json :=
  updateDoc data fn errorSegs (.obj []) (.arr [])

/-- Forward evaluation of `updateDoc` on a document whose `results` entry is
a dict. -/
theorem updateDoc_obj_eval (gs : List (String × Json)) (rfs : List (String × Json))
    (h : lookupField gs "results" = some (.obj rfs))
    (fn : String) (segs bi pl : Json) :
    updateDoc (.obj gs) fn segs bi pl =
      .ok (.obj (setField
        (setField gs "results"
          (.obj (setField rfs (pyBasename fn) (mkRecord segs bi pl))))
        "processed_files"
        (.num (Int.ofNat (setField rfs (pyBasename fn) (mkRecord segs bi pl)).length)))) := by
  simp [updateDoc, pyGetStr, pySetStr, pyLen, bind, Except.bind, h,
    lookupField_setField_self]

/-- Inversion: a successful `updateDoc` forces the input document's shape
and determines the output document. -/
theorem updateDoc_shape (data : Json) (fn : String) (segs bi pl : Json) (d' : Json)
    (h : updateDoc data fn segs bi pl = .ok d') :
    ∃ fs resfs, data = .obj fs ∧ lookupField fs "results" = some (.obj resfs) ∧
      d' = .obj (setField
        (setField fs "results"
          (.obj (setField resfs (pyBasename fn) (mkRecord segs bi pl))))
        "processed_files"
        (.num (Int.ofNat (setField resfs (pyBasename fn) (mkRecord segs bi pl)).length))) := by
  cases data with
  | obj fs =>
    cases hlk : lookupField fs "results" with
    | none => simp [updateDoc, pyGetStr, hlk, bind, Except.bind] at h
    | some res =>
      cases res with
      | obj resfs =>
        rw [updateDoc_obj_eval fs resfs hlk] at h
        exact ⟨fs, resfs, rfl, hlk, (Except.ok.injEq _ _ ▸ h).symm⟩
      | null => simp [updateDoc, pyGetStr, pySetStr, hlk, bind, Except.bind] at h
      | bool b => simp [updateDoc, pyGetStr, pySetStr, hlk, bind, Except.bind] at h
      | num n => simp [updateDoc, pyGetStr, pySetStr, hlk, bind, Except.bind] at h
      | str s => simp [updateDoc, pyGetStr, pySetStr, hlk, bind, Except.bind] at h
      | arr xs => simp [updateDoc, pyGetStr, pySetStr, hlk, bind, Except.bind] at h
  | null => simp [updateDoc, pyGetStr, bind, Except.bind] at h
  | bool b => simp [updateDoc, pyGetStr, bind, Except.bind] at h
  | num n => simp [updateDoc, pyGetStr, bind, Except.bind] at h
  | str s => simp [updateDoc, pyGetStr, bind, Except.bind] at h
  | arr xs => simp [updateDoc, pyGetStr, bind, Except.bind] at h

theorem lookup_res_set (gs : List (String × Json)) (x y : Json) :
    lookupField (setField (setField gs "results" x) "processed_files" y) "results" =
      some x := by
  rw [lookupField_setField_ne _ "processed_files" "results" _ (by decide),
    lookupField_setField_self]

theorem pyGetStr_eq_of_lookup (gs : List (String × Json)) (k : String) (v : Json)
    (h : lookupField gs k = some v) : pyGetStr (.obj gs) k = .ok v := by
  simp [pyGetStr, h]

/-- C6: after every `update_output_file(filename, segments, build_info,
players)` call, the persisted document satisfies
`processed_files == |results|`: `processed_files` is recomputed as the size
of the `results` dict on each update, never incremented. -/
theorem update_processed_files_eq_results_size
    (data : Json) (fn : String) (segs bi pl : Json) (d' : Json)
    (h : updateDoc data fn segs bi pl = .ok d') :
    ∃ resfs, pyGetStr d' "results" = .ok (.obj resfs) ∧
      pyGetStr d' "processed_files" = .ok (.num (Int.ofNat resfs.length)) := by
  obtain ⟨fs, resfs, -, -, rfl⟩ := updateDoc_shape data fn segs bi pl d' h
  refine ⟨setField resfs (pyBasename fn) (mkRecord segs bi pl), ?_, ?_⟩
  · exact pyGetStr_eq_of_lookup _ _ _ (lookup_res_set _ _ _)
  · exact pyGetStr_eq_of_lookup _ _ _ (lookupField_setField_self _ _ _)

/-- The document produced by updating the fresh document with an empty
segment list for `a/f.REPLAY`: used by the concrete witnesses. -/
def doc1 : Json :=
  .obj [("total_files", .num 0), ("processed_files", .num 1),
    ("results", .obj [("f.REPLAY", mkRecord (.arr []) (.obj []) (.arr []))])]

/-- C6 witness: the invariant at a concrete update of the fresh document. -/
theorem update_processed_files_witness :
    ∃ resfs, pyGetStr doc1 "results" = .ok (.obj resfs) ∧
      pyGetStr doc1 "processed_files" = .ok (.num (Int.ofNat resfs.length)) :=
  update_processed_files_eq_results_size freshDoc "a/f.REPLAY"
    (.arr []) (.obj []) (.arr []) doc1 (by rfl)

/-- C8: reprocessing the same input file is idempotent: a second
`update_output_file` call for the same filename with the same scanner and
extractor outputs maps the store to the very same document (the prior
record is replaced by an identical one), and `total_files` is untouched by
updates. -/
theorem update_idempotent
    (data : Json) (fn : String) (segs bi pl : Json) (d' : Json)
    (h : updateDoc data fn segs bi pl = .ok d') :
    updateDoc d' fn segs bi pl = .ok d' ∧
      pyGetStr d' "total_files" = pyGetStr data "total_files" := by
  obtain ⟨fs, resfs, rfl, hlk, rfl⟩ := updateDoc_shape data fn segs bi pl d' h
  have hres2 := lookup_res_set fs
    (Json.obj (setField resfs (pyBasename fn) (mkRecord segs bi pl)))
    (Json.num (Int.ofNat (setField resfs (pyBasename fn) (mkRecord segs bi pl)).length))
  have hproc2 : lookupField
      (setField (setField fs "results"
        (.obj (setField resfs (pyBasename fn) (mkRecord segs bi pl))))
        "processed_files"
        (.num (Int.ofNat (setField resfs (pyBasename fn) (mkRecord segs bi pl)).length)))
      "processed_files" =
      some (.num (Int.ofNat (setField resfs (pyBasename fn) (mkRecord segs bi pl)).length)) := by
    rw [lookupField_setField_self]
  constructor
  · rw [updateDoc_obj_eval _ _ hres2, setField_setField,
      setField_of_lookup _ _ _ hres2, setField_of_lookup _ _ _ hproc2]
  · rw [pyGetStr, pyGetStr,
      lookupField_setField_ne _ "processed_files" "total_files" _ (by decide),
      lookupField_setField_ne _ "results" "total_files" _ (by decide)]

/-- C8 witness: idempotence at a concrete update of the fresh document. -/
theorem update_idempotent_witness :
    updateDoc doc1 "a/f.REPLAY" (.arr []) (.obj []) (.arr []) = .ok doc1 ∧
      pyGetStr doc1 "total_files" = pyGetStr freshDoc "total_files" :=
  update_idempotent freshDoc "a/f.REPLAY" (.arr []) (.obj []) (.arr []) doc1 (by rfl)

/-- C10: the store keys each record by the basename of the supplied path:
two updates whose paths share a basename write to the same key, the later
one overwriting the earlier record, and the results dict (hence
`processed_files`) does not grow; the missing-file error path
(`process_replay_file` on a nonexistent path) goes through the same
basename keying. -/
theorem update_keyed_by_basename
    (p1 p2 p3 : String) (data d1 d2 d3 : Json) (s1 b1 l1 s2 b2 l2 : Json)
    (hb : pyBasename p1 = pyBasename p2)
    (hb3 : pyBasename p3 = pyBasename p1)
    (h1 : updateDoc data p1 s1 b1 l1 = .ok d1)
    (h2 : updateDoc d1 p2 s2 b2 l2 = .ok d2)
    (h3 : processMissingDoc d2 p3 = .ok d3) :
    ∃ rfs1 rfs2 rfs3,
      pyGetStr d1 "results" = .ok (.obj rfs1) ∧
      pyGetStr d2 "results" = .ok (.obj rfs2) ∧
      pyGetStr d3 "results" = .ok (.obj rfs3) ∧
      lookupField rfs2 (pyBasename p1) = some (mkRecord s2 b2 l2) ∧
      lookupField rfs3 (pyBasename p1) = some (mkRecord errorSegs (.obj []) (.arr [])) ∧
      rfs2.length = rfs1.length ∧ rfs3.length = rfs1.length := by
  obtain ⟨fs, resfs, rfl, hlk, rfl⟩ := updateDoc_shape data p1 s1 b1 l1 d1 h1
  obtain ⟨fs2, resfs2, heq2, hlk2, rfl⟩ := updateDoc_shape _ p2 s2 b2 l2 d2 h2
  injection heq2 with hfs2
  subst hfs2
  rw [lookup_res_set] at hlk2
  injection hlk2 with hlk2'
  injection hlk2' with hres2eq
  subst hres2eq
  obtain ⟨fs3, resfs3, heq3, hlk3, rfl⟩ := updateDoc_shape _ p3 _ _ _ d3 h3
  injection heq3 with hfs3
  subst hfs3
  rw [lookup_res_set] at hlk3
  injection hlk3 with hlk3'
  injection hlk3' with hres3eq
  subst hres3eq
  refine ⟨setField resfs (pyBasename p1) (mkRecord s1 b1 l1),
    setField (setField resfs (pyBasename p1) (mkRecord s1 b1 l1)) (pyBasename p2)
      (mkRecord s2 b2 l2),
    setField (setField (setField resfs (pyBasename p1) (mkRecord s1 b1 l1)) (pyBasename p2)
      (mkRecord s2 b2 l2)) (pyBasename p3) (mkRecord errorSegs (.obj []) (.arr [])),
    pyGetStr_eq_of_lookup _ _ _ (lookup_res_set _ _ _),
    pyGetStr_eq_of_lookup _ _ _ (lookup_res_set _ _ _),
    pyGetStr_eq_of_lookup _ _ _ (lookup_res_set _ _ _), ?_, ?_, ?_, ?_⟩
  · rw [hb, lookupField_setField_self]
  · rw [hb3, lookupField_setField_self]
  · rw [length_setField_of_mem]
    rw [← hb, lookupField_setField_self]
    rfl
  · rw [length_setField_of_mem, length_setField_of_mem]
    · rw [← hb, lookupField_setField_self]
      rfl
    · rw [hb3, hb, lookupField_setField_self]
      rfl

/-- The documents after a first update of `a/x.REPLAY`, a second update of
`b/x.REPLAY` (same basename) and a missing-file record for `c/x.REPLAY`:
used by the C10 witness. -/
def docX1 : Json :=
  .obj [("total_files", .num 0), ("processed_files", .num 1),
    ("results", .obj [("x.REPLAY", mkRecord (.arr []) (.obj []) (.arr []))])]

def docX2 : Json :=
  .obj [("total_files", .num 0), ("processed_files", .num 1),
    ("results", .obj [("x.REPLAY",
      mkRecord (.arr [.obj [("details", .null)]]) (.obj []) (.arr []))])]

def docX3 : Json :=
  .obj [("total_files", .num 0), ("processed_files", .num 1),
    ("results", .obj [("x.REPLAY", mkRecord errorSegs (.obj []) (.arr []))])]

/-- C10 witness: three same-basename updates on concrete documents. -/
theorem update_keyed_by_basename_witness :
    ∃ rfs1 rfs2 rfs3,
      pyGetStr docX1 "results" = .ok (.obj rfs1) ∧
      pyGetStr docX2 "results" = .ok (.obj rfs2) ∧
      pyGetStr docX3 "results" = .ok (.obj rfs3) ∧
      lookupField rfs2 (pyBasename "a/x.REPLAY") =
        some (mkRecord (.arr [.obj [("details", .null)]]) (.obj []) (.arr [])) ∧
      lookupField rfs3 (pyBasename "a/x.REPLAY") =
        some (mkRecord errorSegs (.obj []) (.arr [])) ∧
      rfs2.length = rfs1.length ∧ rfs3.length = rfs1.length :=
  update_keyed_by_basename "a/x.REPLAY" "b/x.REPLAY" "c/x.REPLAY"
    freshDoc docX1 docX2 docX3
    (.arr []) (.obj []) (.arr [])
    (.arr [.obj [("details", .null)]]) (.obj []) (.arr [])
    (by rfl) (by rfl) (by rfl) (by rfl) (by rfl)

/-! ## A model of `json.loads` (used by `try_parse_json` in both bulk
checkers and by `json.load` in `update_output_file`)

`json.loads` is Python standard library; the claims never depend on its
internals beyond "parses as a well-formed JSON document or fails", so it is
modelled by a recursive-descent parser over byte lists: whitespace between
tokens, `null`/`true`/`false`, strings with the standard escapes and UTF-8
multibyte sequences, integers (fractions and exponents are rejected — the
embedding's numbers are integers), arrays and objects.  Duplicate object
keys keep the last value at the first occurrence's position, as CPython's
dict building does. -/

def isJsonWs (c : Nat) : Bool := c == 32 || c == 9 || c == 10 || c == 13

def skipWs (bs : List Nat) : List Nat := bs.dropWhile isJsonWs

def hexVal (c : Nat) : Option Nat :=
  if 48 ≤ c ∧ c ≤ 57 then some (c - 48)
  else if 97 ≤ c ∧ c ≤ 102 then some (c - 87)
  else if 65 ≤ c ∧ c ≤ 70 then some (c - 55)
  else none

/-- JSON string body after the opening quote: standard escapes, `\uXXXX`,
and UTF-8 multibyte sequences; fuel-indexed, with enough fuel for the
remaining input. -/
def parseStrBody : Nat → List Nat → List Char → Option (String × List Nat)
  | 0, _, _ => none
  | _, [], _ => none
  | fuel+1, b :: bs, acc =>
    if b = 34 then some (String.mk acc.reverse, bs)
    else if b = 92 then
      match bs with
      | 34 :: rest => parseStrBody fuel rest ('"' :: acc)
      | 92 :: rest => parseStrBody fuel rest ('\\' :: acc)
      | 47 :: rest => parseStrBody fuel rest ('/' :: acc)
      | 98 :: rest => parseStrBody fuel rest (Char.ofNat 8 :: acc)
      | 102 :: rest => parseStrBody fuel rest (Char.ofNat 12 :: acc)
      | 110 :: rest => parseStrBody fuel rest ('\n' :: acc)
      | 114 :: rest => parseStrBody fuel rest (Char.ofNat 13 :: acc)
      | 116 :: rest => parseStrBody fuel rest ('\t' :: acc)
      | 117 :: h1 :: h2 :: h3 :: h4 :: rest =>
        match hexVal h1, hexVal h2, hexVal h3, hexVal h4 with
        | some a, some b', some c, some d =>
            parseStrBody fuel rest (Char.ofNat (((a * 16 + b') * 16 + c) * 16 + d) :: acc)
        | _, _, _, _ => none
      | _ => none
    else if b < 32 then none
    else if b < 128 then parseStrBody fuel bs (Char.ofNat b :: acc)
    else if 194 ≤ b ∧ b ≤ 223 then
      match bs with
      | c2 :: rest =>
        if 128 ≤ c2 ∧ c2 ≤ 191 then
          parseStrBody fuel rest (Char.ofNat ((b - 192) * 64 + (c2 - 128)) :: acc)
        else none
      | [] => none
    else if 224 ≤ b ∧ b ≤ 239 then
      match bs with
      | c2 :: c3 :: rest =>
        if 128 ≤ c2 ∧ c2 ≤ 191 ∧ 128 ≤ c3 ∧ c3 ≤ 191 then
          parseStrBody fuel rest
            (Char.ofNat (((b - 224) * 64 + (c2 - 128)) * 64 + (c3 - 128)) :: acc)
        else none
      | _ => none
    else if 240 ≤ b ∧ b ≤ 244 then
      match bs with
      | c2 :: c3 :: c4 :: rest =>
        if 128 ≤ c2 ∧ c2 ≤ 191 ∧ 128 ≤ c3 ∧ c3 ≤ 191 ∧ 128 ≤ c4 ∧ c4 ≤ 191 then
          parseStrBody fuel rest
            (Char.ofNat ((((b - 240) * 64 + (c2 - 128)) * 64 + (c3 - 128)) * 64 + (c4 - 128)) :: acc)
        else none
      | _ => none
    else none

def digitsToNat (ds : List Nat) : Nat := ds.foldl (fun n c => n * 10 + (c - 48)) 0

/-- JSON number restricted to integers: optional minus, a digit run, and no
following `.`/`e`/`E`. -/
def parseNumber (bs : List Nat) : Option (Json × List Nat) :=
  let p := match bs with
    | 45 :: rest => (true, rest)
    | _ => (false, bs)
  let q := p.2.span (fun c => decide (48 ≤ c) && decide (c ≤ 57))
  match q.1 with
  | [] => none
  | ds =>
    match q.2 with
    | 46 :: _ => none
    | 101 :: _ => none
    | 69 :: _ => none
    | rest =>
        some (.num (if p.1 then -(Int.ofNat (digitsToNat ds)) else Int.ofNat (digitsToNat ds)),
          rest)

/-- Object members accumulated into a CPython dict: later duplicate keys
overwrite in place. -/
def objFromPairs (ps : List (String × Json)) : List (String × Json) :=
  ps.foldl (fun fs p => setField fs p.1 p.2) []

mutual

def parseVal : Nat → List Nat → Option (Json × List Nat)
  | 0, _ => none
  | fuel+1, bs =>
    match skipWs bs with
    | 110 :: 117 :: 108 :: 108 :: rest => some (.null, rest)
    | 116 :: 114 :: 117 :: 101 :: rest => some (.bool true, rest)
    | 102 :: 97 :: 108 :: 115 :: 101 :: rest => some (.bool false, rest)
    | 34 :: rest => (parseStrBody (rest.length + 1) rest []).map fun p => (.str p.1, p.2)
    | 91 :: rest =>
      (match skipWs rest with
      | 93 :: rest2 => some (.arr [], rest2)
      | rest2 => parseElems fuel rest2 [])
    | 123 :: rest =>
      (match skipWs rest with
      | 125 :: rest2 => some (.obj [], rest2)
      | rest2 => parseMembers fuel rest2 [])
    | bs' => parseNumber bs'

def parseElems : Nat → List Nat → List Json → Option (Json × List Nat)
  | 0, _, _ => none
  | fuel+1, bs, acc =>
    match parseVal fuel bs with
    | none => none
    | some (v, rest) =>
      match skipWs rest with
      | 44 :: rest2 => parseElems fuel rest2 (v :: acc)
      | 93 :: rest2 => some (.arr (v :: acc).reverse, rest2)
      | _ => none

def parseMembers : Nat → List Nat → List (String × Json) → Option (Json × List Nat)
  | 0, _, _ => none
  | fuel+1, bs, acc =>
    match skipWs bs with
    | 34 :: rest =>
      (match parseStrBody (rest.length + 1) rest [] with
      | none => none
      | some (k, rest2) =>
        match skipWs rest2 with
        | 58 :: rest3 =>
          (match parseVal fuel rest3 with
          | none => none
          | some (v, rest4) =>
            match skipWs rest4 with
            | 44 :: rest5 => parseMembers fuel rest5 ((k, v) :: acc)
            | 125 :: rest5 => some (.obj (objFromPairs ((k, v) :: acc).reverse), rest5)
            | _ => none)
        | _ => none)
    | _ => none

end

/-- `try_parse_json`: `json.loads(data_bytes.decode("utf-8"))`, succeeding
iff the whole input is one JSON document (up to surrounding whitespace). -/
def tryParseJson (bs : List Nat) : Option Json :=
  match parseVal (2 * bs.length + 4) bs with
  | some (v, rest) => if (skipWs rest).isEmpty then some v else none
  | none => none

/-- A text-mode file content as the byte/code-point list the parser reads. -/
def strBytes (s : String) : List Nat := s.data.map Char.toNat

/-- `json.load` on a text file's content. -/
def parseJsonStr (s : String) : Option Json := tryParseJson (strBytes s)

/-! ## The segment scanner (battle-result-bulk-checker.py lines 89-98,
bulk-checker.py lines 29-41)

    for i in range(len(raw)):
        if raw[i : i + 1] == b"{":
            for j in range(i + 10, min(i + 5000, len(raw))):
                if raw[j : j + 1] == b"}":
                    possible_json = raw[i : j + 1]
                    data, ok = try_parse_json(possible_json)
                    if ok:
                        json_segments.append({"details": data})
                        break

The inner `for`/`break` is the first-success search `List.findSome?` over
`range(i + 10, min(i + 5000, len(raw)))`; the outer `for` with at most one
append per iteration is `List.filterMap` over `range(len(raw))`.  The
parser is a parameter so that the characterisation holds for any parse
function, `tryParseJson` included. -/

/-- Python `raw[i : j + 1]`. -/
def sliceBytes (raw : List Nat) (i j : Nat) : List Nat := (raw.drop i).take (j + 1 - i)

/-- The inner loop: the segment found from start offset `i`, if any. -/
def segmentAt (parse : List Nat → Option Json) (raw : List Nat) (i : Nat) : Option Json :=
  (List.range' (i + 10) (min (i + 5000) raw.length - (i + 10))).findSome? fun j =>
    if raw.get? j = some 125 then parse (sliceBytes raw i j) else none

/-- The scanner: one optional segment per `'{'` start offset, wrapped as
`{"details": data}` as battle-result-bulk-checker.py line 95 does
(bulk-checker.py records `(i, j, data)` instead; the found values and
offsets are the same). -/
def scanSegments (parse : List Nat → Option Json) (raw : List Nat) : List Json :=
  (List.range raw.length).filterMap fun i =>
    if raw.get? i = some 123 then
      (segmentAt parse raw i).map (fun d => Json.obj [("details", d)])
    else none

theorem findSome?_cons_some {α β : Type} {f : α → Option β} {a : α} {w : β} {l : List α}
    (h : f a = some w) : List.findSome? f (a :: l) = some w := by
  simp [List.findSome?_cons, h]

theorem findSome?_cons_none {α β : Type} {f : α → Option β} {a : α} {l : List α}
    (h : f a = none) : List.findSome? f (a :: l) = List.findSome? f l := by
  simp [List.findSome?_cons, h]

/-- First-success characterisation of `findSome?` over a contiguous index
range: it returns `some v` exactly when some index yields `v` and every
earlier index yields nothing. -/
theorem findSome?_range'_eq_some {β : Type} (f : Nat → Option β) (v : β) :
    ∀ (n a : Nat), (List.range' a n).findSome? f = some v ↔
      ∃ j, a ≤ j ∧ j < a + n ∧ f j = some v ∧
        ∀ k, a ≤ k → k < j → f k = none := by
  intro n
  induction n with
  | zero =>
    intro a
    simp [List.range']
    intro j h1 h2
    omega
  | succ m ih =>
    intro a
    rw [List.range'_succ]
    constructor
    · intro h
      cases hfa : f a with
      | some w =>
        rw [findSome?_cons_some hfa] at h
        exact ⟨a, le_refl a, by omega, by rw [hfa, h], fun k hk1 hk2 => by omega⟩
      | none =>
        rw [findSome?_cons_none hfa] at h
        obtain ⟨j, hj1, hj2, hj3, hj4⟩ := (ih (a + 1)).mp h
        refine ⟨j, by omega, by omega, hj3, fun k hk1 hk2 => ?_⟩
        rcases Nat.eq_or_lt_of_le hk1 with he | hl
        · rw [← he]
          exact hfa
        · exact hj4 k hl hk2
    · rintro ⟨j, hj1, hj2, hj3, hj4⟩
      cases hfa : f a with
      | some w =>
        have hja : j = a := by
          by_contra hne
          have hl : a < j := by omega
          have hk := hj4 a (le_refl a) hl
          rw [hfa] at hk
          cases hk
        rw [findSome?_cons_some hfa, ← hfa]
        rw [hja] at hj3
        exact hj3.symm ▸ rfl
      | none =>
        rw [findSome?_cons_none hfa]
        refine (ih (a + 1)).mpr ⟨j, ?_, by omega, hj3, fun k hk1 hk2 => hj4 k (by omega) hk2⟩
        rcases Nat.eq_or_lt_of_le hj1 with he | hl
        · exfalso
          rw [← he, hfa] at hj3
          cases hj3
        · omega

/-- C1: the scanner emits at most one segment per `'{'` start offset `i` —
namely the parse of `raw[i..=j]` for the first `j` in the window
`[i+10, min(i+5000, len(raw)))` such that `raw[j] == '}'` and the slice
parses; every earlier closing brace whose slice fails to parse is skipped
as a scan miss, not an error; and the outer loop resumes at `i + 1`
(`filterMap` over all start offsets), so later overlapping or nested
starts are scanned as well. -/
theorem scanner_first_valid_end_wins (parse : List Nat → Option Json) (raw : List Nat) :
    (scanSegments parse raw = (List.range raw.length).filterMap fun i =>
      if raw.get? i = some 123 then
        (segmentAt parse raw i).map (fun d => Json.obj [("details", d)])
      else none) ∧
    ∀ i v, segmentAt parse raw i = some v ↔
      ∃ j, i + 10 ≤ j ∧ j < min (i + 5000) raw.length ∧
        raw.get? j = some 125 ∧ parse (sliceBytes raw i j) = some v ∧
        ∀ k, i + 10 ≤ k → k < j → raw.get? k = some 125 →
          parse (sliceBytes raw i k) = none := by
  refine ⟨rfl, fun i v => ?_⟩
  unfold segmentAt
  rw [findSome?_range'_eq_some]
  constructor
  · rintro ⟨j, hj1, hj2, hj3, hj4⟩
    by_cases hc : raw.get? j = some 125
    · rw [if_pos hc] at hj3
      refine ⟨j, hj1, by omega, hc, hj3, fun k hk1 hk2 hk3 => ?_⟩
      have hk := hj4 k hk1 hk2
      rwa [if_pos hk3] at hk
    · rw [if_neg hc] at hj3
      cases hj3
  · rintro ⟨j, hj1, hj2, hj3, hj4, hj5⟩
    refine ⟨j, hj1, by omega, ?_, fun k hk1 hk2 => ?_⟩
    · rw [if_pos hj3]
      exact hj4
    · by_cases hc : raw.get? k = some 125
      · rw [if_pos hc]
        exact hj5 k hk1 hk2 hc
      · rw [if_neg hc]

/-- The spec's test buffer `b"junk{\"a\":1}trailing"`, byte for byte. -/
def bJunk : List Nat :=
  [106, 117, 110, 107, 123, 34, 97, 34, 58, 49, 125,
   116, 114, 97, 105, 108, 105, 110, 103]

/-- C2 counterexample: on `b"junk{\"a\":1}trailing"` the scanner yields no
segment at all, not one — the only `'{'` is at offset 4 and its matching
`'}'` at offset 10 lies below the window's minimum lookahead `i + 10 = 14`. -/
theorem scanner_junk_buffer_counterexample :
    (scanSegments tryParseJson bJunk).length = 0 := by rfl

/-- C2 amended: on `b"junk{\"a\":1}trailing"` the scanner yields no
segments: the `'{'` sits at offset 4 and the `'}'` at offset 10, but the
inner window for start 4 is `[14, 19)`, which contains no `'}'`, so the
object is never even offered to the parser. -/
theorem scanner_junk_buffer_amended :
    scanSegments tryParseJson bJunk = [] ∧
    bJunk.get? 4 = some 123 ∧ bJunk.get? 10 = some 125 ∧
    ∀ j < 19, 14 ≤ j → bJunk.get? j ≠ some 125 := by
  refine ⟨rfl, rfl, rfl, by decide⟩

/-! ## Persistence: what `update_output_file` does to the file
(battle-result-bulk-checker.py lines 62-78)

The function's I/O is: read `OUTPUT_FILENAME` (`json.load`, with
`FileNotFoundError`/`json.JSONDecodeError` falling back to a fresh
document, and no message of any kind emitted), then
`open(OUTPUT_FILENAME, "w")` — which truncates the file in place — and
`json.dump` the whole updated document into it.  The trace of file
operations is modelled explicitly; the vocabulary also contains the
temp-file write and atomic rename that a replace-on-write discipline
would use, so that their absence from the code's trace is a statement,
not an omission of the model. -/

/-- Serialization model of `json.dump(data, out, indent=2)`.  The exact
whitespace layout is not reproduced; no verified claim depends on it. -/
def quoteJsonStr (s : String) : String :=
  "\"" ++ (s.data.foldl (fun acc c =>
    if c = '"' then acc ++ "\\\""
    else if c = '\\' then acc ++ "\\\\"
    else acc ++ String.mk [c]) "") ++ "\""

mutual

def dumpJson : Json → String
  | .null => "null"
  | .bool true => "true"
  | .bool false => "false"
  | .num n => toString n
  | .str s => quoteJsonStr s
  | .arr xs => "[" ++ dumpElems xs ++ "]"
  | .obj fs => "\x7b" ++ dumpFields fs ++ "\x7d"

def dumpElems : List Json → String
  | [] => ""
  | [x] => dumpJson x
  | x :: xs => dumpJson x ++ ", " ++ dumpElems xs

def dumpFields : List (String × Json) → String
  | [] => ""
  | [(k, v)] => quoteJsonStr k ++ ": " ++ dumpJson v
  | (k, v) :: fs => quoteJsonStr k ++ ": " ++ dumpJson v ++ ", " ++ dumpFields fs

end

/-- File operations on the corpus file, in the order performed.
`writeTemp`/`renameTempToCorpus` are the spec's atomic-replace vocabulary;
the code never performs them. -/
inductive FsOp where
  | readCorpus
  | openTruncate
  | writeAll (s : String)
  | writeTemp (s : String)
  | renameTempToCorpus (s : String)
deriving DecidableEq

/-- The `try`/`except (FileNotFoundError, json.JSONDecodeError)` load at
lines 63-67: a missing or unparseable corpus file silently becomes the
fresh empty document. -/
def loadDoc : Option String → Json
  | none => freshDoc
  | some s =>
    match parseJsonStr s with
    | some d => d
    | none => freshDoc

/-- What one `update_output_file` call does: the updated in-memory
document, the file operations performed on the corpus file, and the
console messages emitted — the function body contains no print or logging
statement, so that list is empty by construction. -/
structure UpdateEffect where
  doc : Json
  ops : List FsOp
  warnings : List String

def updateOutputFile (prior : Option String) (fn : String) (segs bi pl : Json) :
    Except PyErr UpdateEffect := do
  let data := loadDoc prior
  let d' ← updateDoc data fn segs bi pl
  .ok { doc := d',
        ops := [.readCorpus, .openTruncate, .writeAll (dumpJson d')],
        warnings := [] }

/-- Effect of one file operation on the corpus file's content (`none` =
the file does not exist). -/
def applyFsOp (cur : Option String) : FsOp → Option String
  | .readCorpus => cur
  | .openTruncate => some ""
  | .writeAll s => some ((cur.getD "") ++ s)
  | .writeTemp _ => cur
  | .renameTempToCorpus s => some s

/-- Every content the corpus file passes through while the operations run,
starting from `prior`: the observable states under cancellation or crash. -/
def fileStates (prior : Option String) (ops : List FsOp) : List (Option String) :=
  ops.scanl applyFsOp prior

/-- C4 counterexample: a concrete update passes through the file state `""`
(the moment after `open(OUTPUT_FILENAME, "w")` truncates the corpus in
place), and `""` is not a parseable JSON document — so the corpus is not
valid and parseable at every moment of the update. -/
theorem update_not_atomic_counterexample :
    (∃ eff, updateOutputFile none "a/f.REPLAY" (Json.arr []) (Json.obj []) (Json.arr []) =
        .ok eff ∧ some "" ∈ fileStates none eff.ops) ∧
    parseJsonStr "" = none := by
  refine ⟨⟨⟨doc1, [.readCorpus, .openTruncate, .writeAll (dumpJson doc1)], []⟩,
    by rfl, ?_⟩, rfl⟩
  simp [fileStates, List.scanl, applyFsOp]

/-- C4 amended: every successful update rewrites the corpus file in place:
it reads, truncates the file, and writes the full serialization of the
updated document, whose complete text is the final state; but between the
truncation and the completed write the file is empty — not parseable —
and no temp-file write or atomic rename ever occurs. -/
theorem update_write_in_place (prior : Option String) (fn : String) (segs bi pl : Json)
    (eff : UpdateEffect) (h : updateOutputFile prior fn segs bi pl = .ok eff) :
    eff.ops = [.readCorpus, .openTruncate, .writeAll (dumpJson eff.doc)] ∧
    fileStates prior eff.ops = [prior, prior, some "", some (dumpJson eff.doc)] ∧
    (∀ s, FsOp.renameTempToCorpus s ∈ eff.ops → False) ∧
    (∀ s, FsOp.writeTemp s ∈ eff.ops → False) ∧
    parseJsonStr "" = none := by
  cases hu : updateDoc (loadDoc prior) fn segs bi pl with
  | error e =>
    simp [updateOutputFile, hu, bind, Except.bind] at h
  | ok d' =>
    simp [updateOutputFile, hu, bind, Except.bind] at h
    subst h
    refine ⟨rfl, ?_, ?_, ?_, rfl⟩
    · simp [fileStates, List.scanl, applyFsOp]
    · intro s hs
      simp [List.mem_cons] at hs
    · intro s hs
      simp [List.mem_cons] at hs

/-- The effect of the concrete update used by the C4 witness. -/
def eff1 : UpdateEffect :=
  ⟨doc1, [.readCorpus, .openTruncate, .writeAll (dumpJson doc1)], []⟩

/-- C4 witness: the in-place write shape at a concrete update. -/
theorem update_write_in_place_witness :
    eff1.ops = [.readCorpus, .openTruncate, .writeAll (dumpJson eff1.doc)] ∧
    fileStates none eff1.ops = [none, none, some "", some (dumpJson eff1.doc)] ∧
    (∀ s, FsOp.renameTempToCorpus s ∈ eff1.ops → False) ∧
    (∀ s, FsOp.writeTemp s ∈ eff1.ops → False) ∧
    parseJsonStr "" = none :=
  update_write_in_place none "a/f.REPLAY" (.arr []) (.obj []) (.arr []) eff1 (by rfl)

/-- C5 counterexample: on a corpus file whose content is not valid JSON the
update succeeds from a fresh document but emits no warning whatsoever —
the recovery is invisible to the caller, contrary to the claim that it is
surfaced as a warning. -/
theorem update_corrupt_no_warning_counterexample :
    ∃ eff, updateOutputFile (some "corrupt") "a/f.REPLAY"
        (Json.arr []) (Json.obj []) (Json.arr []) = .ok eff ∧
      eff.warnings = [] := by
  exact ⟨⟨doc1, [.readCorpus, .openTruncate, .writeAll (dumpJson doc1)], []⟩, by rfl, rfl⟩

/-- C5 amended: when the corpus file is absent or not valid JSON, the
update does not fail: it silently discards the file's content and proceeds
exactly as if the file did not exist, starting from the fresh empty
document — and no warning is emitted to the caller. -/
theorem update_corrupt_recovery_silent (s : String) (fn : String) (segs bi pl : Json)
    (h : parseJsonStr s = none) :
    loadDoc (some s) = freshDoc ∧
    updateOutputFile (some s) fn segs bi pl = updateOutputFile none fn segs bi pl ∧
    ∀ eff, updateOutputFile (some s) fn segs bi pl = .ok eff → eff.warnings = [] := by
  have hl : loadDoc (some s) = freshDoc := by
    simp [loadDoc, h]
  refine ⟨hl, ?_, ?_⟩
  · simp [updateOutputFile, loadDoc, h]
  · intro eff heff
    cases hu : updateDoc (loadDoc (some s)) fn segs bi pl with
    | error e => simp [updateOutputFile, hu, bind, Except.bind] at heff
    | ok d' =>
      simp [updateOutputFile, hu, bind, Except.bind] at heff
      subst heff
      rfl

/-- C5 witness: the silent recovery at the concrete corrupt content
`"corrupt"`. -/
theorem update_corrupt_recovery_silent_witness :
    loadDoc (some "corrupt") = freshDoc ∧
    updateOutputFile (some "corrupt") "a/f.REPLAY" (.arr []) (.obj []) (.arr []) =
      updateOutputFile none "a/f.REPLAY" (.arr []) (.obj []) (.arr []) ∧
    ∀ eff, updateOutputFile (some "corrupt") "a/f.REPLAY" (.arr []) (.obj []) (.arr []) =
        .ok eff → eff.warnings = [] :=
  update_corrupt_recovery_silent "corrupt" "a/f.REPLAY" (.arr []) (.obj []) (.arr []) (by rfl)

/-! ## Statistics: `analyze_replay_data` (replay-statistics.py)

The record-touching computations of `analyze_replay_data` are embedded
section by section in source order: win/loss tally, map statistics, player
statistics, team sizes, partnerships, filename-date analysis, and streaks.
Pure presentation code is elided: `print` formatting, the floating-point
ratio/mean fields (no claim touches a ratio value; every division in the
source is guarded except the empty-corpus summary line, which no claim
concerns), the `most_common`/`sorted` top-N selections, and the
`player_teammates` sets (read from the same `players` values as the
player-statistics loop and mentioned by no claim). -/

/-- Python `for x in y`: lists yield elements, strings yield one-character
strings, dicts yield their keys; other values raise `TypeError`. -/
def pyIter (j : Json) : Except PyErr (List Json) :=
  match j with
  | .arr xs => .ok xs
  | .str s => .ok (s.data.map (fun c => .str (String.mk [c])))
  | .obj fs => .ok (fs.map (fun p => .str p.1))
  | _ => .error .typeError

/-- Python hashability: lists and dicts cannot be dict keys. -/
def pyHashable : Json → Bool
  | .arr _ => false
  | .obj _ => false
  | _ => true

/-- The guarded result extraction every section repeats:

    result = "Unknown"
    if ("match_details" in match_data and match_data["match_details"]
            and len(match_data["match_details"]) > 0):
        result = match_data["match_details"][0]["details"]["m_endGameType"]

(the first section writes the same logic with an `else` branch appending
`"Unknown"`). -/
def getResult (md : Json) : Except PyErr Json := do
  let hasKey ← pyContainsStr md "match_details"
  if hasKey then
    let v ← pyGetStr md "match_details"
    if pyTruthy v then
      let n ← pyLen v
      if n > 0 then
        let x ← pyGetNat v 0
        let d ← pyGetStr x "details"
        pyGetStr d "m_endGameType"
      else pure (.str "Unknown")
    else pure (.str "Unknown")
  else pure (.str "Unknown")

/-- State of the win/loss section (lines 21-43): counters plus the
`match_results` list. -/
structure WinLoss where
  wins : Nat
  losses : Nat
  unknown : Nat
  matchResults : List Json

def winLossStep (st : WinLoss) (md : Json) : Except PyErr WinLoss := do
  let r ← getResult md
  if jsonIsStr r "Win" then
    pure { st with wins := st.wins + 1, matchResults := st.matchResults ++ [r] }
  else if jsonIsStr r "Loose" then
    pure { st with losses := st.losses + 1, matchResults := st.matchResults ++ [r] }
  else
    pure { st with unknown := st.unknown + 1, matchResults := st.matchResults ++ [r] }

def winLossLoop (records : List Json) : Except PyErr WinLoss :=
  records.foldlM winLossStep ⟨0, 0, 0, []⟩

/-- Model of Python `str()` as used in the f-string map key: exact for the
strings and integers real corpora contain, schematic for containers. -/
def pyStrOf : Json → String
  | .str s => s
  | .num n => toString n
  | .bool true => "True"
  | .bool false => "False"
  | .null => "None"
  | .arr _ => "[...]"
  | .obj _ => "\x7b...\x7d"

structure MapStat where
  wins : Nat
  losses : Nat
  unknown : Nat
  total : Nat

def lookupAssoc {α : Type} : List (String × α) → String → Option α
  | [], _ => none
  | (k', v') :: rest, k => if k' = k then some v' else lookupAssoc rest k

def setAssoc {α : Type} : List (String × α) → String → α → List (String × α)
  | [], k, v => [(k, v)]
  | (k', v') :: rest, k, v =>
      if k' = k then (k, v) :: rest else (k', v') :: setAssoc rest k v

/-- One iteration of the map-statistics loop (lines 57-77): note the
unguarded `match_data["map_info"]["map"]` lookups. -/
def mapStep (st : List (String × MapStat)) (md : Json) :
    Except PyErr (List (String × MapStat)) := do
  let mi ← pyGetStr md "map_info"
  let mapName ← pyGetStr mi "map"
  let mode ← pyGetStr mi "mode"
  let r ← getResult md
  let key := pyStrOf mapName ++ " (" ++ pyStrOf mode ++ ")"
  let cur := (lookupAssoc st key).getD ⟨0, 0, 0, 0⟩
  let cur' :=
    if jsonIsStr r "Win" then
      { cur with total := cur.total + 1, wins := cur.wins + 1 }
    else if jsonIsStr r "Loose" then
      { cur with total := cur.total + 1, losses := cur.losses + 1 }
    else
      { cur with total := cur.total + 1, unknown := cur.unknown + 1 }
  pure (setAssoc st key cur')

structure PStat where
  matchCount : Nat
  wins : Nat
  losses : Nat
  unknown : Nat

def lookupScalar {α : Type} : List (Json × α) → Json → Option α
  | [], _ => none
  | (k', v') :: rest, k => if scalarEqb k' k then some v' else lookupScalar rest k

def setScalar {α : Type} : List (Json × α) → Json → α → List (Json × α)
  | [], k, v => [(k, v)]
  | (k', v') :: rest, k, v =>
      if scalarEqb k' k then (k', v) :: rest else (k', v') :: setScalar rest k v

/-- One iteration of the player-statistics loop (lines 101-128): the
result, then the unguarded `match_data["players"]`, then one bump per
player. -/
def playerStep (st : List (Json × PStat)) (md : Json) :
    Except PyErr (List (Json × PStat)) := do
  let r ← getResult md
  let players ← pyGetStr md "players"
  let elems ← pyIter players
  elems.foldlM (fun acc p => do
    if pyHashable p then
      let cur := (lookupScalar acc p).getD ⟨0, 0, 0, 0⟩
      let cur' :=
        if jsonIsStr r "Win" then
          { cur with matchCount := cur.matchCount + 1, wins := cur.wins + 1 }
        else if jsonIsStr r "Loose" then
          { cur with matchCount := cur.matchCount + 1, losses := cur.losses + 1 }
        else
          { cur with matchCount := cur.matchCount + 1, unknown := cur.unknown + 1 }
      pure (setScalar acc p cur')
    else .error .typeError) st

/-- `len(match_data["players"])` in the team-size list comprehension
(line 161). -/
def teamSizeOf (md : Json) : Except PyErr Nat := do
  pyLen (← pyGetStr md "players")

/-- Python `<` between the scalar values `sorted` compares; mixed
string/number comparison raises `TypeError` as in Python. -/
def pyLtScalar (a b : Json) : Except PyErr Bool :=
  match a, b with
  | .str x, .str y => .ok (decide (x < y))
  | .num x, .num y => .ok (decide (x < y))
  | .num x, .bool y => .ok (decide (x < (if y then 1 else 0)))
  | .bool x, .num y => .ok (decide ((if x then (1 : Int) else 0) < y))
  | .bool x, .bool y => .ok (decide ((if x then (1 : Int) else 0) < (if y then 1 else 0)))
  | _, _ => .error .typeError

/-- `tuple(sorted([a, b]))`. -/
def sortedPair (a b : Json) : Except PyErr (Json × Json) := do
  let lt ← pyLtScalar b a
  pure (if lt then (b, a) else (a, b))

def bumpPair (st : List ((Json × Json) × Nat)) (pr : Json × Json) :
    List ((Json × Json) × Nat) :=
  match st with
  | [] => [(pr, 1)]
  | (q, n) :: rest =>
      if scalarEqb q.1 pr.1 && scalarEqb q.2 pr.2 then (q, n + 1) :: rest
      else (q, n) :: bumpPair rest pr

/-- One iteration of the partnership loop (lines 180-186): all index pairs
`i < j` of `match_data["players"]`, counted into a `Counter` keyed by the
sorted pair. -/
def partnershipStep (st : List ((Json × Json) × Nat)) (md : Json) :
    Except PyErr (List ((Json × Json) × Nat)) := do
  let players ← pyGetStr md "players"
  let n ← pyLen players
  (List.range n).foldlM (fun acc i =>
    (List.range' (i + 1) (n - (i + 1))).foldlM (fun acc2 j => do
      let pi ← pyGetNat players i
      let pj ← pyGetNat players j
      let pr ← sortedPair pi pj
      if pyHashable pr.1 && pyHashable pr.2 then
        pure (bumpPair acc2 pr)
      else .error .typeError) acc) st

/-- Python whitespace stripped by `int(str)`. -/
def isPySpace (c : Char) : Bool := c = ' ' || c = '\t' || c = '\n' || c = '\x0d'

def pyStrip (cs : List Char) : List Char :=
  ((cs.dropWhile isPySpace).reverse.dropWhile isPySpace).reverse

/-- Model of Python `int(str)`: optional surrounding whitespace, optional
sign, a nonempty digit run; anything else raises `ValueError` (`none`). -/
def pyInt (s : String) : Option Int :=
  let t := pyStrip s.data
  let p : Int × List Char :=
    match t with
    | '-' :: rest => (-1, rest)
    | '+' :: rest => (1, rest)
    | cs => (1, cs)
  if p.2 ≠ [] ∧ p.2.all Char.isDigit then
    some (p.1 * Int.ofNat (p.2.foldl (fun n c => n * 10 + (c.toNat - 48)) 0))
  else none

/-- Python `str.split("_")`. -/
def splitChars : List Char → List (List Char)
  | [] => [[]]
  | c :: rest =>
    match splitChars rest with
    | [] => [[c]]
    | h :: t => if c = '_' then [] :: h :: t else (c :: h) :: t

def splitOnUscore (s : String) : List String := (splitChars s.data).map String.mk

/-- The date extraction of the time-analysis loop (lines 205-217):

    parts = filename.split("_")
    if len(parts) < 7: problematic; continue
    year, month, day = int(parts[3]), int(parts[4]), int(parts[5])

with `ValueError`/`IndexError` sending the filename to the problematic
list. -/
def parseFileDate (fn : String) : Option (Int × Int × Int) :=
  let parts := splitOnUscore fn
  if parts.length < 7 then none
  else
    match pyInt (parts.getD 3 ""), pyInt (parts.getD 4 ""), pyInt (parts.getD 5 "") with
    | some y, some m, some d => some (y, m, d)
    | _, _, _ => none

def dateStep (st : List (Int × Int × Int) × List String) (fn : String) :
    List (Int × Int × Int) × List String :=
  match parseFileDate fn with
  | some d => (st.1 ++ [d], st.2)
  | none => (st.1, st.2 ++ [fn])

def dateLoop (fns : List String) : List (Int × Int × Int) × List String :=
  fns.foldl dateStep ([], [])

/-- One step of the streak loop (lines 240-262): the signed counter with
its two maxima. -/
def streakStep (st : Int × Nat × Nat) (r : Json) : Int × Nat × Nat :=
  if jsonIsStr r "Win" then
    let cur' := if st.1 ≥ 0 then st.1 + 1 else 1
    (cur', max st.2.1 cur'.toNat, st.2.2)
  else if jsonIsStr r "Loose" then
    let cur' := if st.1 ≤ 0 then st.1 - 1 else -1
    (cur', st.2.1, max st.2.2 cur'.natAbs)
  else (0, st.2.1, st.2.2)

def streakFold (rs : List Json) : Int × Nat × Nat := rs.foldl streakStep (0, 0, 0)

/-- The streak loop from a given state: extract the (safely defaulted)
result of each record and feed it to the counter. -/
def streakLoopFrom (st : Int × Nat × Nat) : List Json → Except PyErr (Int × Nat × Nat)
  | [] => .ok st
  | md :: t => do
    let r ← getResult md
    streakLoopFrom (streakStep st r) t

/-- The streak loop over `results.values()` — corpus insertion order, no
sorting of any kind in the source. -/
def streakLoop (records : List Json) : Except PyErr (Int × Nat × Nat) :=
  streakLoopFrom (0, 0, 0) records

/-- The per-record results, in corpus insertion order, when every record
extracts without an exception. -/
def getResults : List Json → Except PyErr (List Json)
  | [] => .ok []
  | md :: t => do
    let r ← getResult md
    let rest ← getResults t
    pure (r :: rest)

/-- Everything `analyze_replay_data` computes from the records, in source
order; an exception in any section aborts the whole analysis, as in
Python. -/
structure Analysis where
  wins : Nat
  losses : Nat
  unknown : Nat
  matchResults : List Json
  mapStats : List (String × MapStat)
  playerStats : List (Json × PStat)
  teamSizes : List Nat
  partnerships : List ((Json × Json) × Nat)
  dates : List (Int × Int × Int)
  problematic : List String
  maxWinStreak : Nat
  maxLossStreak : Nat

def analyzeReplayData (results : List (String × Json)) : Except PyErr Analysis := do
  let wl ← winLossLoop (results.map Prod.snd)
  let ms ← (results.map Prod.snd).foldlM mapStep []
  let ps ← (results.map Prod.snd).foldlM playerStep []
  let ts ← (results.map Prod.snd).mapM teamSizeOf
  let pc ← (results.map Prod.snd).foldlM partnershipStep []
  let dd := dateLoop (results.map Prod.fst)
  let sk ← streakLoop (results.map Prod.snd)
  pure { wins := wl.wins, losses := wl.losses, unknown := wl.unknown,
         matchResults := wl.matchResults, mapStats := ms, playerStats := ps,
         teamSizes := ts, partnerships := pc, dates := dd.1, problematic := dd.2,
         maxWinStreak := sk.2.1, maxLossStreak := sk.2.2 }

/-- A well-formed `match_details` value carrying the given result. -/
def okSegs (r : String) : Json :=
  .arr [.obj [("details", .obj [("m_endGameType", .str r)])]]

def mapInfo1 : Json := .obj [("map", .str "Desert"), ("mode", .str "Domination")]

/-- Exactly the record the bulk checker stores for a missing input file. -/
def errRecord : Json :=
  .obj [("match_details", errorSegs), ("game_version", .obj []), ("players", .arr [])]

/-- A record with a result but no `map_info` key — as every record the
bulk checker writes. -/
def noMapRecord (r : String) : Json :=
  .obj [("match_details", okSegs r), ("game_version", .obj []), ("players", .arr [])]

/-- A record lacking the `players` key. -/
def noPlayersRecord (r : String) : Json :=
  .obj [("match_details", okSegs r), ("map_info", mapInfo1), ("game_version", .obj [])]

/-- C3 counterexample: a corpus holding one record whose `match_details` is
the stored missing-file error object — exactly what the bulk checker
writes — makes report computation raise a `KeyError` (at
`match_details[0]` on a dict) instead of completing. -/
theorem statistics_error_record_raises :
    analyzeReplayData [("f.REPLAY", errRecord)] = .error .keyError := by rfl

/-- C3 amended: the guarded extraction does tally a record with absent or
falsy `match_details` as `Unknown`, and a record whose `players` list is
empty contributes to no per-player or partnership statistics; but report
generation is not total: a record whose `match_details` is a truthy
non-list (the stored error object), or which lacks `map_info`, or which
lacks the `players` key, makes the analysis raise a `KeyError`. -/
theorem statistics_malformed_record_tolerance :
    (∀ fs, lookupField fs "match_details" = none →
      getResult (.obj fs) = .ok (.str "Unknown")) ∧
    (∀ fs v, lookupField fs "match_details" = some v → pyTruthy v = false →
      getResult (.obj fs) = .ok (.str "Unknown")) ∧
    (∀ md r, getResult md = .ok r → pyGetStr md "players" = .ok (.arr []) →
      (∀ st, playerStep st md = .ok st) ∧ (∀ c, partnershipStep c md = .ok c)) ∧
    analyzeReplayData [("f.REPLAY", errRecord)] = .error .keyError ∧
    analyzeReplayData [("g.REPLAY", noMapRecord "Win")] = .error .keyError ∧
    analyzeReplayData [("h.REPLAY", noPlayersRecord "Win")] = .error .keyError := by
  refine ⟨?_, ?_, ?_, rfl, rfl, rfl⟩
  · intro fs h
    simp [getResult, pyContainsStr, h, bind, Except.bind, pure, Except.pure]
  · intro fs v h1 h2
    simp [getResult, pyContainsStr, pyGetStr, h1, h2, bind, Except.bind, pure, Except.pure]
  · intro md r h1 h2
    constructor
    · intro st
      simp [playerStep, h1, h2, pyIter, bind, Except.bind, pure, Except.pure, List.foldlM]
    · intro c
      simp [partnershipStep, h2, pyLen, bind, Except.bind, pure, Except.pure,
        List.range, List.foldlM]

/-! ## C9: the date analysis partition -/

/-- Modelled from the spec: the conventional filename shape
`<map>_<mode>_<YYYY>_<MM>_<DD>_<...>_<hash>.<ext>` puts the year, month
and day at underscore tokens 2, 3 and 4 (with a single-token map and
mode). -/
def specShapeDate (fn : String) : Option (Int × Int × Int) :=
  let parts := splitOnUscore fn
  if 7 ≤ parts.length then
    match pyInt (parts.getD 2 ""), pyInt (parts.getD 3 ""), pyInt (parts.getD 4 "") with
    | some y, some m, some d => some (y, m, d)
    | _, _, _ => none
  else none

/-- C9 counterexample: a filename that matches the conventional shape
exactly (map `map`, mode `mode`, date 2024-05-12, one middle token, a hash
token with extension) is parsed by the shape at tokens 2-4 but rejected by
the code, which reads tokens 3-5 — `int("x")` fails — and counts the
filename as problematic instead of dating it. -/
theorem date_positions_counterexample :
    specShapeDate "map_mode_2024_05_12_x_hash.rep" = some (2024, 5, 12) ∧
    parseFileDate "map_mode_2024_05_12_x_hash.rep" = none := ⟨rfl, rfl⟩

theorem dateLoop_go (fns : List String) : ∀ ds ps,
    fns.foldl dateStep (ds, ps) =
      (ds ++ fns.filterMap parseFileDate,
       ps ++ fns.filter (fun fn => (parseFileDate fn).isNone)) := by
  induction fns with
  | nil => intro ds ps; simp
  | cons fn t ih =>
    intro ds ps
    cases hd : parseFileDate fn with
    | some d =>
      simp only [List.foldl_cons, dateStep, hd, List.filterMap_cons, List.filter_cons]
      rw [ih]
      simp [hd]
    | none =>
      simp only [List.foldl_cons, dateStep, hd, List.filterMap_cons, List.filter_cons]
      rw [ih]
      simp [hd]

theorem length_dates_split (fns : List String) :
    (fns.filterMap parseFileDate).length +
      (fns.filter (fun fn => (parseFileDate fn).isNone)).length = fns.length := by
  induction fns with
  | nil => rfl
  | cons fn t ih =>
    cases hd : parseFileDate fn with
    | some d =>
      simp [List.filterMap_cons, List.filter_cons, hd]
      omega
    | none =>
      simp [List.filterMap_cons, List.filter_cons, hd]
      omega

/-- C9 amended: date analysis reads the year, month and day from the
underscore tokens at indices 3, 4 and 5 of the filename (requiring at
least 7 tokens) — one position later than the conventional shape
`<map>_<mode>_<YYYY>_<MM>_<DD>_<...>` places them; every filename is
either dated or problematic, never both and never neither. -/
theorem date_partition (fns : List String) :
    (dateLoop fns).1 = fns.filterMap parseFileDate ∧
    (dateLoop fns).2 = fns.filter (fun fn => (parseFileDate fn).isNone) ∧
    (dateLoop fns).1.length + (dateLoop fns).2.length = fns.length ∧
    ∀ fn y m d, parseFileDate fn = some (y, m, d) →
      7 ≤ (splitOnUscore fn).length ∧
      pyInt ((splitOnUscore fn).getD 3 "") = some y ∧
      pyInt ((splitOnUscore fn).getD 4 "") = some m ∧
      pyInt ((splitOnUscore fn).getD 5 "") = some d := by
  have hloop := dateLoop_go fns [] []
  have h1 : (dateLoop fns).1 = fns.filterMap parseFileDate := by
    rw [dateLoop, hloop]
    simp
  have h2 : (dateLoop fns).2 = fns.filter (fun fn => (parseFileDate fn).isNone) := by
    rw [dateLoop, hloop]
    simp
  refine ⟨h1, h2, ?_, ?_⟩
  · rw [h1, h2]
    exact length_dates_split fns
  · intro fn y m d h
    simp only [parseFileDate] at h
    split at h
    · cases h
    · split at h
      · injection h with h'
        injection h' with hy h''
        injection h'' with hm hd
        subst hy
        subst hm
        subst hd
        refine ⟨by omega, ?_, ?_, ?_⟩ <;> assumption
      · cases h

/-! ## C7: the streak walk -/

/-- Length of the initial run of `p`-elements. -/
def headRun {α : Type} (p : α → Bool) : List α → Nat
  | [] => 0
  | a :: l => if p a then headRun p l + 1 else 0

/-- Length of the longest run of consecutive `p`-elements: the reference
meaning of a maximal streak. -/
def maxRun {α : Type} (p : α → Bool) : List α → Nat
  | [] => 0
  | a :: l => max (headRun p (a :: l)) (maxRun p l)

/-- Longest run when a run of length `k` is already open. -/
def maxRunFrom {α : Type} (p : α → Bool) (k : Nat) : List α → Nat
  | [] => k
  | a :: l => if p a then maxRunFrom p (k + 1) l else max k (maxRun p l)

theorem headRun_le_maxRun {α : Type} (p : α → Bool) (l : List α) :
    headRun p l ≤ maxRun p l := by
  cases l with
  | nil => exact le_refl 0
  | cons a t => exact le_max_left _ _

theorem maxRunFrom_eq {α : Type} (p : α → Bool) (l : List α) : ∀ k,
    maxRunFrom p k l = max (k + headRun p l) (maxRun p l) := by
  induction l with
  | nil => intro k; simp [maxRunFrom, headRun, maxRun]
  | cons a t ih =>
    intro k
    by_cases hp : p a
    · simp only [maxRunFrom, headRun, maxRun, hp, if_pos]
      rw [ih (k + 1)]
      omega
    · simp only [maxRunFrom, headRun, maxRun, hp, Bool.false_eq_true,
        not_false_iff, ite_false]
      omega

theorem le_maxRunFrom {α : Type} (p : α → Bool) (l : List α) (k : Nat) :
    k ≤ maxRunFrom p k l := by
  rw [maxRunFrom_eq]
  omega

theorem jsonIsStr_true_iff (j : Json) (s : String) :
    jsonIsStr j s = true ↔ j = .str s := by
  cases j <;> simp [jsonIsStr, scalarEqb]

/-- The signed streak counter computes, in each component, the longest run
seen so far; the invariant carries the open run encoded in the counter's
sign. -/
theorem streakFold_go (rs : List Json) : ∀ (cur : Int) (mW mL : Nat),
    (if 0 ≤ cur then cur.toNat else 0) ≤ mW →
    (if cur ≤ 0 then cur.natAbs else 0) ≤ mL →
    (rs.foldl streakStep (cur, mW, mL)).2.1 =
      max mW (maxRunFrom (fun r => jsonIsStr r "Win")
        (if 0 ≤ cur then cur.toNat else 0) rs) ∧
    (rs.foldl streakStep (cur, mW, mL)).2.2 =
      max mL (maxRunFrom (fun r => jsonIsStr r "Loose")
        (if cur ≤ 0 then cur.natAbs else 0) rs) := by
  induction rs with
  | nil =>
    intro cur mW mL hW hL
    constructor
    · simp only [List.foldl_nil, maxRunFrom]
      omega
    · simp only [List.foldl_nil, maxRunFrom]
      omega
  | cons r t ih =>
    intro cur mW mL hW hL
    by_cases hw : jsonIsStr r "Win"
    · have hnl : jsonIsStr r "Loose" = false := by
        rw [(jsonIsStr_true_iff r "Win").mp hw]
        rfl
      have hstep : streakStep (cur, mW, mL) r =
          (if cur ≥ 0 then cur + 1 else 1,
           max mW (if cur ≥ 0 then cur + 1 else 1).toNat, mL) := by
        simp [streakStep, hw]
      have hcur' : (if cur ≥ 0 then cur + 1 else 1).toNat =
          (if 0 ≤ cur then cur.toNat else 0) + 1 := by
        by_cases hc : 0 ≤ cur
        · simp [hc, ge_iff_le]
          omega
        · simp [hc, ge_iff_le]
      have hpos : (0 : Int) ≤ (if cur ≥ 0 then cur + 1 else 1) := by
        by_cases hc : 0 ≤ cur <;> · simp [hc, ge_iff_le]; try omega
      have hnneg : ¬ (if cur ≥ 0 then cur + 1 else 1) ≤ 0 := by
        by_cases hc : 0 ≤ cur <;> · simp [hc, ge_iff_le]; try omega
      rw [List.foldl_cons, hstep, hcur']
      have hih := ih (if cur ≥ 0 then cur + 1 else 1)
        (max mW ((if 0 ≤ cur then cur.toNat else 0) + 1)) mL
        (by rw [if_pos hpos, hcur']; exact le_max_right _ _)
        (by rw [if_neg hnneg]; exact Nat.zero_le _)
      rw [if_pos hpos, if_neg hnneg, hcur'] at hih
      obtain ⟨hih1, hih2⟩ := hih
      constructor
      · rw [hih1]
        simp only [maxRunFrom, hw, if_pos]
        have hle := le_maxRunFrom (fun r => jsonIsStr r "Win") t
          ((if 0 ≤ cur then cur.toNat else 0) + 1)
        omega
      · rw [hih2]
        simp only [maxRunFrom, hnl, Bool.false_eq_true, not_false_iff, ite_false]
        have heq := maxRunFrom_eq (fun r => jsonIsStr r "Loose") t 0
        have hh := headRun_le_maxRun (fun r => jsonIsStr r "Loose") t
        omega
    · by_cases hl : jsonIsStr r "Loose"
      · have hstep : streakStep (cur, mW, mL) r =
            (if cur ≤ 0 then cur - 1 else -1, mW,
             max mL (if cur ≤ 0 then cur - 1 else -1).natAbs) := by
          simp [streakStep, hw, hl]
        have hcur' : (if cur ≤ 0 then cur - 1 else -1).natAbs =
            (if cur ≤ 0 then cur.natAbs else 0) + 1 := by
          by_cases hc : cur ≤ 0
          · simp [hc]
            omega
          · simp [hc]
        have hneg : (if cur ≤ 0 then cur - 1 else -1) ≤ 0 := by
          by_cases hc : cur ≤ 0 <;> · simp [hc]; try omega
        have hnpos : ¬ (0 : Int) ≤ (if cur ≤ 0 then cur - 1 else -1) := by
          by_cases hc : cur ≤ 0 <;> · simp [hc]; try omega
        rw [List.foldl_cons, hstep, hcur']
        have hih := ih (if cur ≤ 0 then cur - 1 else -1) mW
          (max mL ((if cur ≤ 0 then cur.natAbs else 0) + 1))
          (by rw [if_neg hnpos]; exact Nat.zero_le _)
          (by rw [if_pos hneg, hcur']; exact le_max_right _ _)
        rw [if_neg hnpos, if_pos hneg, hcur'] at hih
        obtain ⟨hih1, hih2⟩ := hih
        constructor
        · rw [hih1]
          simp only [maxRunFrom, hw, Bool.false_eq_true, not_false_iff, ite_false]
          have heq := maxRunFrom_eq (fun r => jsonIsStr r "Win") t 0
          have hh := headRun_le_maxRun (fun r => jsonIsStr r "Win") t
          omega
        · rw [hih2]
          simp only [maxRunFrom, hl, if_pos]
          have hle := le_maxRunFrom (fun r => jsonIsStr r "Loose") t
            ((if cur ≤ 0 then cur.natAbs else 0) + 1)
          omega
      · have hstep : streakStep (cur, mW, mL) r = (0, mW, mL) := by
          simp [streakStep, hw, hl]
        rw [List.foldl_cons, hstep]
        have hih := ih 0 mW mL (by simp) (by simp)
        simp only [le_refl, if_pos, Int.toNat_zero, Int.natAbs_zero] at hih
        obtain ⟨hih1, hih2⟩ := hih
        constructor
        · rw [hih1]
          simp only [maxRunFrom, hw, Bool.false_eq_true, not_false_iff, ite_false]
          have heq := maxRunFrom_eq (fun r => jsonIsStr r "Win") t 0
          have hh := headRun_le_maxRun (fun r => jsonIsStr r "Win") t
          omega
        · rw [hih2]
          simp only [maxRunFrom, hl, Bool.false_eq_true, not_false_iff, ite_false]
          have heq := maxRunFrom_eq (fun r => jsonIsStr r "Loose") t 0
          have hh := headRun_le_maxRun (fun r => jsonIsStr r "Loose") t
          omega

theorem streakLoopFrom_ok (records : List Json) : ∀ (rs : List Json) (st : Int × Nat × Nat),
    getResults records = .ok rs →
    streakLoopFrom st records = .ok (rs.foldl streakStep st) := by
  induction records with
  | nil =>
    intro rs st h
    simp [getResults] at h
    subst h
    simp [streakLoopFrom]
  | cons md t ih =>
    intro rs st h
    cases hr : getResult md with
    | error e => simp [getResults, hr, bind, Except.bind] at h
    | ok r0 =>
      cases hm : getResults t with
      | error e => simp [getResults, hr, hm, bind, Except.bind] at h
      | ok rs' =>
        simp [getResults, hr, hm, bind, Except.bind, pure, Except.pure] at h
        subst h
        simp only [streakLoopFrom, hr, bind, Except.bind]
        rw [ih rs' (streakStep st r0) hm]
        simp [List.foldl_cons]

/-- C7 amended: the streak walk visits the records in corpus insertion
order (the order of `results.values()`; the source sorts nothing), with
the stated counter mechanics — `Win` extends or starts a positive streak,
`Loose` a negative one, anything else resets the counter — and the two
reported maxima are exactly the longest runs of consecutive `Win` and of
consecutive `Loose` results in that insertion order. -/
theorem streaks_insertion_order_runs (records : List Json) (rs : List Json)
    (h : getResults records = .ok rs) :
    streakLoop records = .ok (streakFold rs) ∧
    (streakFold rs).2.1 = maxRun (fun r => jsonIsStr r "Win") rs ∧
    (streakFold rs).2.2 = maxRun (fun r => jsonIsStr r "Loose") rs := by
  refine ⟨streakLoopFrom_ok records rs (0, 0, 0) h, ?_, ?_⟩
  · have hg := streakFold_go rs 0 0 0 (by simp) (by simp)
    simp only [le_refl, if_pos, Int.toNat_zero, Int.natAbs_zero] at hg
    rw [streakFold, hg.1]
    have heq := maxRunFrom_eq (fun r => jsonIsStr r "Win") rs 0
    have hh := headRun_le_maxRun (fun r => jsonIsStr r "Win") rs
    omega
  · have hg := streakFold_go rs 0 0 0 (by simp) (by simp)
    simp only [le_refl, if_pos, Int.toNat_zero, Int.natAbs_zero] at hg
    rw [streakFold, hg.2]
    have heq := maxRunFrom_eq (fun r => jsonIsStr r "Loose") rs 0
    have hh := headRun_le_maxRun (fun r => jsonIsStr r "Loose") rs
    omega

/-- A well-formed record with result `Win` and no players. -/
def recWin : Json :=
  .obj [("match_details", okSegs "Win"), ("game_version", .obj []), ("players", .arr [])]

/-- A well-formed record with result `Loose` and no players. -/
def recLoose : Json :=
  .obj [("match_details", okSegs "Loose"), ("game_version", .obj []), ("players", .arr [])]

/-- C7 witness: three records whose insertion-order results are
`Win, Win, Loose` give `max_win_streak = 2` and `max_loss_streak = 1`. -/
theorem streaks_insertion_order_runs_witness :
    streakLoop [recWin, recWin, recLoose] =
      .ok (streakFold [.str "Win", .str "Win", .str "Loose"]) ∧
    (streakFold [.str "Win", .str "Win", .str "Loose"]).2.1 =
      maxRun (fun r => jsonIsStr r "Win") [.str "Win", .str "Win", .str "Loose"] ∧
    (streakFold [.str "Win", .str "Win", .str "Loose"]).2.2 =
      maxRun (fun r => jsonIsStr r "Loose") [.str "Win", .str "Win", .str "Loose"] :=
  streaks_insertion_order_runs [recWin, recWin, recLoose]
    [.str "Win", .str "Win", .str "Loose"] (by rfl)

/-- Modelled from the spec: stable insertion into a chronologically
ordered prefix. -/
def specInsertByKey {α : Type} (le : α → α → Bool) (x : α) : List α → List α
  | [] => [x]
  | y :: ys => if le x y then x :: y :: ys else y :: specInsertByKey le x ys

/-- Modelled from the spec: a stable sort by the given key order. -/
def specSortByKey {α : Type} (le : α → α → Bool) : List α → List α
  | [] => []
  | x :: xs => specInsertByKey le x (specSortByKey le xs)

/-- Modelled from the spec: the chronological key — the filename-encoded
date when parseable (lexicographic year, month, day), with unparseable
filenames kept in insertion order before the dated ones (the spec fixes no
placement for them; the counterexample corpus has every date parseable, so
this choice carries no weight there). -/
def specDateKeyLe (a b : String × Json) : Bool :=
  match parseFileDate a.1, parseFileDate b.1 with
  | none, _ => true
  | some _, none => false
  | some x, some y =>
      decide (x.1 < y.1) || (decide (x.1 = y.1) &&
        (decide (x.2.1 < y.2.1) || (decide (x.2.1 = y.2.1) && decide (x.2.2 ≤ y.2.2))))

/-- Modelled from the spec: the streak walk the spec describes, over the
records ordered by the chronological key. -/
def specChronStreaks (results : List (String × Json)) : Except PyErr (Int × Nat × Nat) :=
  streakLoop ((specSortByKey specDateKeyLe results).map Prod.snd)

/-- Three dated records, inserted out of date order: insertion order gives
results `Win, Loose, Win`, date order gives `Win, Win, Loose`. -/
def corpus7 : List (String × Json) :=
  [("a_b_c_2024_01_01_h.rep", recWin),
   ("a_b_c_2024_01_03_h.rep", recLoose),
   ("a_b_c_2024_01_02_h.rep", recWin)]

/-- C7 counterexample: on a corpus whose filename dates disagree with the
insertion order, the code's streak walk (insertion order) reports
`max_win_streak = 1` while the chronological walk the claim describes
reports `max_win_streak = 2` — the code does not order by the
filename-encoded date. -/
theorem streak_order_counterexample :
    streakLoop (corpus7.map Prod.snd) = .ok (1, 1, 1) ∧
    specChronStreaks corpus7 = .ok (-1, 2, 1) ∧
    streakLoop (corpus7.map Prod.snd) ≠ specChronStreaks corpus7 := by
  have h1 : streakLoop (corpus7.map Prod.snd) = .ok (1, 1, 1) := rfl
  have h2 : specChronStreaks corpus7 = .ok (-1, 2, 1) := rfl
  refine ⟨h1, h2, fun heq => ?_⟩
  rw [h1, h2] at heq
  have h3 := Except.ok.inj heq
  have h4 : (1 : Int) = -1 := congrArg Prod.fst h3
  omega

end HeatLabsTools
